import Mathlib

/-!
Shallow embedding of the MSVC/dbghelp backtrace core
(`src/backtrace/dbghelp.rs`): the `Frame` tagged union over the two
native walk-state record shapes, its accessors, the per-architecture
`init_frame` initializers, the `trace` walk driver, the 64-bit
resolution callbacks, and an instruction-level model of the hand
written `rtl_capture_context` fallback routine.

External collaborators (the dynamically loaded dbghelp library and the
native `StackWalkEx`/`StackWalk64` walking primitives) are modelled at
their interface boundary: the walking primitive is an oracle given as
the finite list of successful in-place frame updates it performs before
reporting failure, per its contract ("on success, the Frame Record's
address fields are updated to describe the newly unwound frame").
-/

namespace Backtrace

/-- Value `AddrModeFlat` from winnt.h (value 3): flat / linear addressing. -/
def AddrModeFlat : Nat := 3

/-- The `ADDRESS64` record used for the PC / stack / frame fields of both
native walk-state shapes: a raw 64-bit offset, a segment selector and an
addressing-mode flag. -/
structure ADDRESS64 where
  Offset : Nat
  Segment : Nat
  Mode : Nat
deriving DecidableEq

/-- The extended (`StackWalkEx`) frame shape. Besides the three address
fields this core reads or writes, it carries walker bookkeeping (inline
frame context etc.) opaque to this core, represented by one field. -/
structure STACKFRAME_EX where
  AddrPC : ADDRESS64
  AddrStack : ADDRESS64
  AddrFrame : ADDRESS64
  InlineFrameContext : Nat
deriving DecidableEq

/-- The legacy (`StackWalk64`) frame shape; only the three address fields
are touched by this core. -/
structure STACKFRAME64 where
  AddrPC : ADDRESS64
  AddrStack : ADDRESS64
  AddrFrame : ADDRESS64
deriving DecidableEq

/-- Rust `pub enum Frame { New(STACKFRAME_EX), Old(STACKFRAME64) }`. -/
inductive Frame where
  | New (s : STACKFRAME_EX)
  | Old (s : STACKFRAME64)
deriving DecidableEq

namespace Frame

/-- Rust `fn addr_pc(&self) -> &ADDRESS64`. -/
def addr_pc : Frame → ADDRESS64
  | New s => s.AddrPC
  | Old s => s.AddrPC

/-- Rust `fn addr_stack(&self) -> &ADDRESS64`. -/
def addr_stack : Frame → ADDRESS64
  | New s => s.AddrStack
  | Old s => s.AddrStack

/-- Read-only view of the `AddrFrame` field (the source exposes it only
mutably, via `addr_frame_mut`); used to state properties of the
frame-pointer field. -/
def addr_frame : Frame → ADDRESS64
  | New s => s.AddrFrame
  | Old s => s.AddrFrame

/-- Rust `fn addr_pc_mut(&mut self)` as a functional update. -/
def modify_addr_pc (g : ADDRESS64 → ADDRESS64) : Frame → Frame
  | New s => New { s with AddrPC := g s.AddrPC }
  | Old s => Old { s with AddrPC := g s.AddrPC }

/-- Rust `fn addr_stack_mut(&mut self)` as a functional update. -/
def modify_addr_stack (g : ADDRESS64 → ADDRESS64) : Frame → Frame
  | New s => New { s with AddrStack := g s.AddrStack }
  | Old s => Old { s with AddrStack := g s.AddrStack }

/-- Rust `fn addr_frame_mut(&mut self)` as a functional update. -/
def modify_addr_frame (g : ADDRESS64 → ADDRESS64) : Frame → Frame
  | New s => New { s with AddrFrame := g s.AddrFrame }
  | Old s => Old { s with AddrFrame := g s.AddrFrame }

/-- Rust `pub fn ip(&self) -> *mut c_void { self.addr_pc().Offset as *mut _ }`
(pointers are modelled as their numeric address). -/
def ip (f : Frame) : Nat := f.addr_pc.Offset

/-- Rust `pub fn sp(&self) -> *mut c_void { self.addr_stack().Offset as *mut _ }`. -/
def sp (f : Frame) : Nat := f.addr_stack.Offset

/-- Rust `pub fn symbol_address(&self) -> *mut c_void { self.ip() }`. -/
def symbol_address (f : Frame) : Nat := f.ip

/-- Which variant of the tagged union a frame carries
(`true` = `New`/Extended, `false` = `Old`/Legacy). -/
def isNew : Frame → Bool
  | New _ => true
  | Old _ => false

/-- All three address fields carry the flat addressing mode. -/
def modesFlat (f : Frame) : Prop :=
  f.addr_pc.Mode = AddrModeFlat ∧ f.addr_stack.Mode = AddrModeFlat ∧
    f.addr_frame.Mode = AddrModeFlat

instance (f : Frame) : Decidable f.modesFlat := by
  unfold modesFlat; infer_instance

end Frame

/-- Machine-type tag `IMAGE_FILE_MACHINE_AMD64`. -/
def IMAGE_FILE_MACHINE_AMD64 : Nat := 0x8664
/-- Machine-type tag `IMAGE_FILE_MACHINE_I386`. -/
def IMAGE_FILE_MACHINE_I386 : Nat := 0x014c
/-- Machine-type tag `IMAGE_FILE_MACHINE_ARM64`. -/
def IMAGE_FILE_MACHINE_ARM64 : Nat := 0xAA64
/-- Machine-type tag `IMAGE_FILE_MACHINE_ARMNT`. -/
def IMAGE_FILE_MACHINE_ARMNT : Nat := 0x01c4

/-- The captured register context, restricted to the registers
`init_frame` reads. The Rust source has one `CONTEXT` layout per build
target architecture, selected by `cfg`; the embedding makes the four
layouts the four variants of one type. -/
inductive CONTEXT where
  | x86_64 (Rip Rsp Rbp : Nat)
  | x86 (Eip Esp Ebp : Nat)
  | aarch64 (Pc Sp Fp : Nat)
  | arm (Pc Sp R11 : Nat)
deriving DecidableEq

/-- Rust `fn init_frame(frame: &mut Frame, ctx: &CONTEXT) -> WORD`: write the
PC / stack / frame fields of the frame from the architecture's
registers, set each field's mode to `AddrModeFlat`, and return the
machine-type tag. One Rust function per `target_arch`; the embedding
matches on the context's architecture. -/
def init_frame (frame : Frame) (ctx : CONTEXT) : Frame × Nat :=
  match ctx with
  | .x86_64 rip rsp rbp =>
    let frame := frame.modify_addr_pc (fun a => { a with Offset := rip })
    let frame := frame.modify_addr_pc (fun a => { a with Mode := AddrModeFlat })
    let frame := frame.modify_addr_stack (fun a => { a with Offset := rsp })
    let frame := frame.modify_addr_stack (fun a => { a with Mode := AddrModeFlat })
    let frame := frame.modify_addr_frame (fun a => { a with Offset := rbp })
    let frame := frame.modify_addr_frame (fun a => { a with Mode := AddrModeFlat })
    (frame, IMAGE_FILE_MACHINE_AMD64)
  | .x86 eip esp ebp =>
    let frame := frame.modify_addr_pc (fun a => { a with Offset := eip })
    let frame := frame.modify_addr_pc (fun a => { a with Mode := AddrModeFlat })
    let frame := frame.modify_addr_stack (fun a => { a with Offset := esp })
    let frame := frame.modify_addr_stack (fun a => { a with Mode := AddrModeFlat })
    let frame := frame.modify_addr_frame (fun a => { a with Offset := ebp })
    let frame := frame.modify_addr_frame (fun a => { a with Mode := AddrModeFlat })
    (frame, IMAGE_FILE_MACHINE_I386)
  | .aarch64 pc sp fp =>
    let frame := frame.modify_addr_pc (fun a => { a with Offset := pc })
    let frame := frame.modify_addr_pc (fun a => { a with Mode := AddrModeFlat })
    let frame := frame.modify_addr_stack (fun a => { a with Offset := sp })
    let frame := frame.modify_addr_stack (fun a => { a with Mode := AddrModeFlat })
    let frame := frame.modify_addr_frame (fun a => { a with Offset := fp })
    let frame := frame.modify_addr_frame (fun a => { a with Mode := AddrModeFlat })
    (frame, IMAGE_FILE_MACHINE_ARM64)
  | .arm pc sp r11 =>
    let frame := frame.modify_addr_pc (fun a => { a with Offset := pc })
    let frame := frame.modify_addr_pc (fun a => { a with Mode := AddrModeFlat })
    let frame := frame.modify_addr_stack (fun a => { a with Offset := sp })
    let frame := frame.modify_addr_stack (fun a => { a with Mode := AddrModeFlat })
    let frame := frame.modify_addr_frame (fun a => { a with Offset := r11 })
    let frame := frame.modify_addr_frame (fun a => { a with Mode := AddrModeFlat })
    (frame, IMAGE_FILE_MACHINE_ARMNT)

/-- Zero value `mem::zeroed::<ADDRESS64>()`. -/
def zeroADDRESS64 : ADDRESS64 := ⟨0, 0, 0⟩

/-- Zero value `mem::zeroed::<STACKFRAME_EX>()`. -/
def zeroSTACKFRAME_EX : STACKFRAME_EX := ⟨zeroADDRESS64, zeroADDRESS64, zeroADDRESS64, 0⟩

/-- Zero value `mem::zeroed::<STACKFRAME64>()`. -/
def zeroSTACKFRAME64 : STACKFRAME64 := ⟨zeroADDRESS64, zeroADDRESS64, zeroADDRESS64⟩

/-! ## Resolution callbacks (64-bit pointer width)

`RtlLookupFunctionEntry` is a kernel primitive external to this core; it
is modelled at its interface boundary as a function from a code address
to the pair (returned function-table entry pointer, module base written
to its out-parameter). The kernel ignores the incoming value of the
out-parameter. -/

/-- Rust `unsafe extern "system" fn function_table_access(_process, addr) -> PVOID`:
`let mut base = 0; RtlLookupFunctionEntry(addr, &mut base, null).cast()`. -/
def function_table_access (rtlLookupFunctionEntry : Nat → Nat × Nat)
    (_process : Nat) (addr : Nat) : Nat :=
  let base := 0
  let call := rtlLookupFunctionEntry addr
  let _base := call.2
  call.1

/-- Rust `unsafe extern "system" fn get_module_base(_process, addr) -> DWORD64`:
`let mut base = 0; RtlLookupFunctionEntry(addr, &mut base, null); base`. -/
def get_module_base (rtlLookupFunctionEntry : Nat → Nat × Nat)
    (_process : Nat) (addr : Nat) : Nat :=
  let base := 0
  let call := rtlLookupFunctionEntry addr
  let base := call.2
  base

/-! ## The walk driver -/

/-- One successful in-place update performed by the external walking
primitive (`StackWalkEx` / `StackWalk64`): per its contract, on success
it rewrites the frame record's address fields to describe the newly
unwound frame. -/
structure StepUpdate where
  pc : Nat
  sp : Nat
  fp : Nat
deriving DecidableEq

/-- Apply one successful call of the external walking primitive to the
frame record it mutates in place. The primitive writes through a pointer
to the payload of whichever variant was selected, so the tag cannot
change; it rewrites the address fields. -/
def applyStep (u : StepUpdate) (f : Frame) : Frame :=
  let f := f.modify_addr_pc (fun a => { a with Offset := u.pc })
  let f := f.modify_addr_stack (fun a => { a with Offset := u.sp })
  f.modify_addr_frame (fun a => { a with Offset := u.fp })

/-- Observable outcome of one `trace` call: the frames shown to the
visitor in order, the number of calls made to the external walking
primitive, and the number of visitor invocations. -/
structure WalkOutcome where
  emitted : List Frame
  primCalls : Nat
  visitorCalls : Nat
deriving DecidableEq

/-- The `while StackWalkEx(...) == TRUE { if !cb(&frame) { break } }`
loop. The external primitive's behaviour is the oracle `steps`: the list
of successful updates it performs before reporting failure. The visitor
is stateful (Rust `FnMut`): `cb s f = (continue?, s')`. -/
def walkLoop {σ : Type} : List StepUpdate → Frame → (σ → Frame → Bool × σ) → σ → WalkOutcome
  | [], _, _, _ => ⟨[], 1, 0⟩
  | u :: rest, f, cb, s =>
    let f := applyStep u f
    let c := cb s f
    if c.1 then
      let o := walkLoop rest f cb c.2
      ⟨f :: o.emitted, o.primCalls + 1, o.visitorCalls + 1⟩
    else
      ⟨[f], 1, 1⟩

/-- The handle returned by the external initialization service
`dbghelp::init()`, restricted to the surface `trace` consumes for
strategy selection: whether `StackWalkEx` resolved in the loaded
library. -/
structure Dbghelp where
  hasStackWalkEx : Bool
deriving DecidableEq

/-- Rust `pub unsafe fn trace(cb)`: capture the context, initialize dbghelp
(`Err` ⇒ return with no frames), pick `StackWalkEx`/`Frame::New` when
available and otherwise `StackWalk64`/`Frame::Old`, initialize the frame
record from the context via `init_frame`, then run the walk loop.
`dbg` is the result of `dbghelp::init()`; `steps` is the walking
primitive oracle. -/
def trace {σ : Type} (dbg : Option Dbghelp) (ctx : CONTEXT)
    (steps : List StepUpdate) (cb : σ → Frame → Bool × σ) (s0 : σ) : WalkOutcome :=
  match dbg with
  | none => ⟨[], 0, 0⟩
  | some d =>
    if d.hasStackWalkEx then
      let frame := Frame.New zeroSTACKFRAME_EX
      let fi := init_frame frame ctx
      walkLoop steps fi.1 cb s0
    else
      let frame := Frame.Old zeroSTACKFRAME64
      let fi := init_frame frame ctx
      walkLoop steps fi.1 cb s0

/-! ## Manual context capture (pre-XP x86 fallback)

`rtl_capture_context` is a `#[naked] extern "system"` routine given by an
explicit instruction sequence; it is embedded as an interpreter over a
small x86 machine state. Memory is a function from byte address to the
32-bit word stored at that address; address arithmetic is modulo 2^32. -/

/-- Modulus 2^32 of the x86 address space. -/
def W32 : Nat := 4294967296

/-- Wrapping 32-bit addition (address arithmetic). -/
def wadd (a b : Nat) : Nat := (a + b) % W32

/-- Wrapping 32-bit subtraction (address arithmetic). -/
def wsub (a b : Nat) : Nat := (a + (W32 - b % W32)) % W32

/-- Store the 32-bit word `v` at byte address `a`. -/
def wmem (m : Nat → Nat) (a v : Nat) : Nat → Nat :=
  fun x => if x = a then v else m x

/-- Byte offsets of the fields of the 32-bit `CONTEXT` record, as in the
source. -/
def SEGGS : Nat := 0x8C
def SEGFS : Nat := 0x90
def SEGES : Nat := 0x94
def SEGDS : Nat := 0x98
def EDI : Nat := 0x9C
def ESI : Nat := 0xA0
def EBX : Nat := 0xA4
def EDX : Nat := 0xA8
def ECX : Nat := 0xAC
def EAX : Nat := 0xB0
def EBP : Nat := 0xB4
def EIP : Nat := 0xB8
def SEGCS : Nat := 0xBC
def EFLAGS : Nat := 0xC0
def ESP : Nat := 0xC4
def SEGSS : Nat := 0xC8

def CONTEXT_FLAGS : Nat := 0x00
def CONTEXT_FULL : Nat := 0x10007

/-- Machine state (x86) at the entry of `rtl_capture_context`: the
general-purpose registers, segment selectors, flags, and memory. At
entry (`extern "system"`, i.e. stdcall) `mem esp` holds the return
address and `mem (esp+4)` holds the context-pointer argument. -/
structure X86State where
  eax : Nat
  ebx : Nat
  ecx : Nat
  edx : Nat
  esi : Nat
  edi : Nat
  ebp : Nat
  esp : Nat
  cs : Nat
  ds : Nat
  es : Nat
  fs : Nat
  gs : Nat
  ss : Nat
  eflags : Nat

/-- Rust `unsafe extern "system" fn rtl_capture_context(context: *mut CONTEXT)`,
one `let` per instruction of the `asm!` block, executed on machine state
`st` with memory `mem`. Returns the machine state and memory at the
`ret 4`. -/
def rtl_capture_context (st : X86State) (mem : Nat → Nat) : X86State × (Nat → Nat) :=
  -- push ebx
  let esp1 := wsub st.esp 4
  let m1 := wmem mem esp1 st.ebx
  -- mov ebx, [esp+8]
  let ebx1 := m1 (wadd esp1 8)
  -- mov [ebx+EAX], eax
  let m2 := wmem m1 (wadd ebx1 EAX) st.eax
  -- mov eax, [esp]
  let eax1 := m2 esp1
  -- mov [ebx+EBX], eax
  let m3 := wmem m2 (wadd ebx1 EBX) eax1
  -- mov [ebx+ECX], ecx
  let m4 := wmem m3 (wadd ebx1 ECX) st.ecx
  -- mov [ebx+EDX], edx
  let m5 := wmem m4 (wadd ebx1 EDX) st.edx
  -- mov [ebx+ESI], esi
  let m6 := wmem m5 (wadd ebx1 ESI) st.esi
  -- mov [ebx+EDI], edi
  let m7 := wmem m6 (wadd ebx1 EDI) st.edi
  -- mov [ebx+SEGCS], cs
  let m8 := wmem m7 (wadd ebx1 SEGCS) st.cs
  -- mov [ebx+SEGDS], ds
  let m9 := wmem m8 (wadd ebx1 SEGDS) st.ds
  -- mov [ebx+SEGES], es
  let m10 := wmem m9 (wadd ebx1 SEGES) st.es
  -- mov [ebx+SEGFS], fs
  let m11 := wmem m10 (wadd ebx1 SEGFS) st.fs
  -- mov [ebx+SEGGS], gs
  let m12 := wmem m11 (wadd ebx1 SEGGS) st.gs
  -- mov [ebx+SEGSS], ss
  let m13 := wmem m12 (wadd ebx1 SEGSS) st.ss
  -- pushf
  let esp2 := wsub esp1 4
  let m14 := wmem m13 esp2 st.eflags
  -- pop dword ptr [ebx+EFLAGS]
  let m15 := wmem m14 (wadd ebx1 EFLAGS) (m14 esp2)
  let esp3 := wadd esp2 4
  -- mov eax, [ebp]
  let eax2 := m15 st.ebp
  -- mov [ebx+EBP], eax
  let m16 := wmem m15 (wadd ebx1 EBP) eax2
  -- mov eax, [ebp+4]
  let eax3 := m16 (wadd st.ebp 4)
  -- mov [ebx+EIP], eax
  let m17 := wmem m16 (wadd ebx1 EIP) eax3
  -- lea eax, [ebp+8]
  let eax4 := wadd st.ebp 8
  -- mov [ebx+ESP], eax
  let m18 := wmem m17 (wadd ebx1 ESP) eax4
  -- mov dword ptr [ebx+CONTEXT_FLAGS], CONTEXT_FULL
  let m19 := wmem m18 (wadd ebx1 CONTEXT_FLAGS) CONTEXT_FULL
  -- pop ebx
  let ebx2 := m19 esp3
  let esp4 := wadd esp3 4
  -- ret 4 (stdcall: pop the return address, then discard the 4-byte argument)
  let esp5 := wadd esp4 8
  ({ st with eax := eax4, ebx := ebx2, esp := esp5 }, m19)

/-- The `CONTEXT` byte offsets `rtl_capture_context` stores through. -/
def ctxOffsets : List Nat :=
  [CONTEXT_FLAGS, SEGGS, SEGFS, SEGES, SEGDS, EDI, ESI, EBX, EDX, ECX,
   EAX, EBP, EIP, SEGCS, EFLAGS, ESP, SEGSS]

/-- Well-formedness of a call site of `rtl_capture_context`: the stack
pointer has room and does not wrap, the caller's frame and the context
buffer do not wrap, and the context buffer is disjoint from the stack
words the routine reads (its two scratch slots, the return-address and
argument slots, and the caller's frame slots at `ebp` and `ebp+4`),
which are also distinct from the scratch slots. `c` is the
context-pointer argument. -/
def captureOk (st : X86State) (c : Nat) : Prop :=
  8 ≤ st.esp ∧ st.esp + 8 < W32 ∧ st.ebp + 8 < W32 ∧ c + 201 < W32 ∧
  (∀ off ∈ ctxOffsets,
    c + off ≠ st.esp - 8 ∧ c + off ≠ st.esp - 4 ∧ c + off ≠ st.esp ∧
    c + off ≠ st.esp + 4 ∧ c + off ≠ st.ebp ∧ c + off ≠ st.ebp + 4) ∧
  st.ebp ≠ st.esp - 8 ∧ st.ebp ≠ st.esp - 4 ∧
  st.ebp + 4 ≠ st.esp - 8 ∧ st.ebp + 4 ≠ st.esp - 4

instance (st : X86State) (c : Nat) : Decidable (captureOk st c) := by
  unfold captureOk; infer_instance

/-- A visitor determined by its per-frame answer sequence `d`: the state
counts the frames shown so far, and the answer on the `i`-th frame shown
is `d i`. -/
def seqVisitor (d : Nat → Bool) : Nat → Frame → Bool × Nat :=
  fun n _ => (d (n + 1), n + 1)

/-- A visitor that always answers "continue". -/
def alwaysContinue : Unit → Frame → Bool × Unit := fun s _ => (true, s)

/-- Concrete call-site machine state used by the capture-routine
witnesses: `esp = 1000`, `ebp = 2000`, context buffer at 3000. -/
def wSt : X86State := ⟨11, 22, 33, 44, 55, 66, 2000, 1000, 7, 8, 9, 10, 12, 13, 99⟩

/-- Concrete memory for the same witnesses: the argument slot `[esp+4]`
holds the context pointer 3000. -/
def wMem : Nat → Nat := fun a => if a = 1004 then 3000 else a + 7

/-- Concrete frame used by walk witnesses: the first frame a one-step
walk emits when `StackWalkEx` is available. -/
def wFrameNew : Frame :=
  applyStep ⟨9, 8, 7⟩ (init_frame (Frame.New zeroSTACKFRAME_EX) (CONTEXT.x86_64 1 2 3)).1


/-- Reading a stored word back at the address it was stored to yields the
stored value. -/
theorem wmem_same (m : Nat → Nat) (a v : Nat) : wmem m a v a = v := by
  simp [wmem]

/-- Reading at any other address sees through the store. -/
theorem wmem_other (m : Nat → Nat) (a v x : Nat) (h : x ≠ a) : wmem m a v x = m x := by
  simp [wmem, h]

set_option maxHeartbeats 1000000 in
/-- After `rtl_capture_context`, the `pop ebx` has restored the register
`ebx` of the caller from the slot pushed on entry. -/
theorem rtl_ebx (st : X86State) (mem : Nat → Nat) (c : Nat)
    (hc : mem (st.esp + 4) = c) (h : captureOk st c) :
    (rtl_capture_context st mem).1.ebx = st.ebx := by
  obtain ⟨h1, h2, h3, h4, H, hb1, hb2, hb3, hb4⟩ := h
  simp only [ctxOffsets, CONTEXT_FLAGS, CONTEXT_FULL, SEGGS, SEGFS, SEGES, SEGDS, EDI, ESI, EBX, EDX, ECX, EAX, EBP, EIP, SEGCS, EFLAGS, ESP, SEGSS, List.mem_cons, List.not_mem_nil,
    forall_eq_or_imp, forall_eq, or_false, Nat.add_zero] at H
  unfold W32 at h2 h3 h4
  simp only [rtl_capture_context, CONTEXT_FLAGS, CONTEXT_FULL, SEGGS, SEGFS, SEGES, SEGDS, EDI, ESI, EBX, EDX, ECX, EAX, EBP, EIP, SEGCS, EFLAGS, ESP, SEGSS,
    show wsub st.esp 4 = st.esp - 4 from by unfold wsub W32; omega,
    show wadd (st.esp - 4) 8 = st.esp + 4 from by unfold wadd W32; omega,
    show wmem mem (st.esp - 4) st.ebx (st.esp + 4) = c from by
      rw [wmem_other _ _ _ _ (show st.esp + 4 ≠ st.esp - 4 by omega)]; exact hc,
    show wadd c 0 = c from by unfold wadd W32; omega,
    show wadd c 140 = c + 140 from by unfold wadd W32; omega,
    show wadd c 144 = c + 144 from by unfold wadd W32; omega,
    show wadd c 148 = c + 148 from by unfold wadd W32; omega,
    show wadd c 152 = c + 152 from by unfold wadd W32; omega,
    show wadd c 156 = c + 156 from by unfold wadd W32; omega,
    show wadd c 160 = c + 160 from by unfold wadd W32; omega,
    show wadd c 164 = c + 164 from by unfold wadd W32; omega,
    show wadd c 168 = c + 168 from by unfold wadd W32; omega,
    show wadd c 172 = c + 172 from by unfold wadd W32; omega,
    show wadd c 176 = c + 176 from by unfold wadd W32; omega,
    show wadd c 180 = c + 180 from by unfold wadd W32; omega,
    show wadd c 184 = c + 184 from by unfold wadd W32; omega,
    show wadd c 188 = c + 188 from by unfold wadd W32; omega,
    show wadd c 192 = c + 192 from by unfold wadd W32; omega,
    show wadd c 196 = c + 196 from by unfold wadd W32; omega,
    show wadd c 200 = c + 200 from by unfold wadd W32; omega,
    show wsub (st.esp - 4) 4 = st.esp - 8 from by unfold wsub W32; omega,
    show wadd (st.esp - 8) 4 = st.esp - 4 from by unfold wadd W32; omega,
    show wadd (st.esp - 4) 4 = st.esp from by unfold wadd W32; omega,
    show wadd st.esp 8 = st.esp + 8 from by unfold wadd W32; omega,
    show wadd st.ebp 4 = st.ebp + 4 from by unfold wadd W32; omega,
    show wadd st.ebp 8 = st.ebp + 8 from by unfold wadd W32; omega]
  have s0 := (H.1.2.1).symm
  have s1 := (H.2.1.2.1).symm
  have s2 := (H.2.2.1.2.1).symm
  have s3 := (H.2.2.2.1.2.1).symm
  have s4 := (H.2.2.2.2.1.2.1).symm
  have s5 := (H.2.2.2.2.2.1.2.1).symm
  have s6 := (H.2.2.2.2.2.2.1.2.1).symm
  have s7 := (H.2.2.2.2.2.2.2.1.2.1).symm
  have s8 := (H.2.2.2.2.2.2.2.2.1.2.1).symm
  have s9 := (H.2.2.2.2.2.2.2.2.2.1.2.1).symm
  have s10 := (H.2.2.2.2.2.2.2.2.2.2.1.2.1).symm
  have s11 := (H.2.2.2.2.2.2.2.2.2.2.2.1.2.1).symm
  have s12 := (H.2.2.2.2.2.2.2.2.2.2.2.2.1.2.1).symm
  have s13 := (H.2.2.2.2.2.2.2.2.2.2.2.2.2.1.2.1).symm
  have s14 := (H.2.2.2.2.2.2.2.2.2.2.2.2.2.2.1.2.1).symm
  have s15 := (H.2.2.2.2.2.2.2.2.2.2.2.2.2.2.2.1.2.1).symm
  have s16 := (H.2.2.2.2.2.2.2.2.2.2.2.2.2.2.2.2.2.1).symm
  clear H hb1 hb2 hb3 hb4 hc
  have q1 : st.esp - 4 ≠ st.esp - 8 := by omega
  clear h1 h2 h3 h4
  simp (disch := assumption) only [wmem_other, wmem_same]

set_option maxHeartbeats 1000000 in
/-- After `rtl_capture_context`, `esp` sits exactly 8 bytes above its
entry value: `ret 4` popped the return address and the single 4-byte
argument, and both scratch pushes were popped before that. -/
theorem rtl_esp (st : X86State) (mem : Nat → Nat) (c : Nat)
    (hc : mem (st.esp + 4) = c) (h : captureOk st c) :
    (rtl_capture_context st mem).1.esp = st.esp + 8 := by
  obtain ⟨h1, h2, h3, h4, H, hb1, hb2, hb3, hb4⟩ := h
  simp only [ctxOffsets, CONTEXT_FLAGS, CONTEXT_FULL, SEGGS, SEGFS, SEGES, SEGDS, EDI, ESI, EBX, EDX, ECX, EAX, EBP, EIP, SEGCS, EFLAGS, ESP, SEGSS, List.mem_cons, List.not_mem_nil,
    forall_eq_or_imp, forall_eq, or_false, Nat.add_zero] at H
  unfold W32 at h2 h3 h4
  simp only [rtl_capture_context, CONTEXT_FLAGS, CONTEXT_FULL, SEGGS, SEGFS, SEGES, SEGDS, EDI, ESI, EBX, EDX, ECX, EAX, EBP, EIP, SEGCS, EFLAGS, ESP, SEGSS,
    show wsub st.esp 4 = st.esp - 4 from by unfold wsub W32; omega,
    show wadd (st.esp - 4) 8 = st.esp + 4 from by unfold wadd W32; omega,
    show wmem mem (st.esp - 4) st.ebx (st.esp + 4) = c from by
      rw [wmem_other _ _ _ _ (show st.esp + 4 ≠ st.esp - 4 by omega)]; exact hc,
    show wadd c 0 = c from by unfold wadd W32; omega,
    show wadd c 140 = c + 140 from by unfold wadd W32; omega,
    show wadd c 144 = c + 144 from by unfold wadd W32; omega,
    show wadd c 148 = c + 148 from by unfold wadd W32; omega,
    show wadd c 152 = c + 152 from by unfold wadd W32; omega,
    show wadd c 156 = c + 156 from by unfold wadd W32; omega,
    show wadd c 160 = c + 160 from by unfold wadd W32; omega,
    show wadd c 164 = c + 164 from by unfold wadd W32; omega,
    show wadd c 168 = c + 168 from by unfold wadd W32; omega,
    show wadd c 172 = c + 172 from by unfold wadd W32; omega,
    show wadd c 176 = c + 176 from by unfold wadd W32; omega,
    show wadd c 180 = c + 180 from by unfold wadd W32; omega,
    show wadd c 184 = c + 184 from by unfold wadd W32; omega,
    show wadd c 188 = c + 188 from by unfold wadd W32; omega,
    show wadd c 192 = c + 192 from by unfold wadd W32; omega,
    show wadd c 196 = c + 196 from by unfold wadd W32; omega,
    show wadd c 200 = c + 200 from by unfold wadd W32; omega,
    show wsub (st.esp - 4) 4 = st.esp - 8 from by unfold wsub W32; omega,
    show wadd (st.esp - 8) 4 = st.esp - 4 from by unfold wadd W32; omega,
    show wadd (st.esp - 4) 4 = st.esp from by unfold wadd W32; omega,
    show wadd st.esp 8 = st.esp + 8 from by unfold wadd W32; omega,
    show wadd st.ebp 4 = st.ebp + 4 from by unfold wadd W32; omega,
    show wadd st.ebp 8 = st.ebp + 8 from by unfold wadd W32; omega]

set_option maxHeartbeats 1000000 in
/-- After `rtl_capture_context`, `eax` holds its final scratch value
`ebp + 8` (from `lea eax, [ebp+8]`): `eax` is the one clobbered
register. -/
theorem rtl_eax (st : X86State) (mem : Nat → Nat) (c : Nat)
    (hc : mem (st.esp + 4) = c) (h : captureOk st c) :
    (rtl_capture_context st mem).1.eax = st.ebp + 8 := by
  obtain ⟨h1, h2, h3, h4, H, hb1, hb2, hb3, hb4⟩ := h
  simp only [ctxOffsets, CONTEXT_FLAGS, CONTEXT_FULL, SEGGS, SEGFS, SEGES, SEGDS, EDI, ESI, EBX, EDX, ECX, EAX, EBP, EIP, SEGCS, EFLAGS, ESP, SEGSS, List.mem_cons, List.not_mem_nil,
    forall_eq_or_imp, forall_eq, or_false, Nat.add_zero] at H
  unfold W32 at h2 h3 h4
  simp only [rtl_capture_context, CONTEXT_FLAGS, CONTEXT_FULL, SEGGS, SEGFS, SEGES, SEGDS, EDI, ESI, EBX, EDX, ECX, EAX, EBP, EIP, SEGCS, EFLAGS, ESP, SEGSS,
    show wsub st.esp 4 = st.esp - 4 from by unfold wsub W32; omega,
    show wadd (st.esp - 4) 8 = st.esp + 4 from by unfold wadd W32; omega,
    show wmem mem (st.esp - 4) st.ebx (st.esp + 4) = c from by
      rw [wmem_other _ _ _ _ (show st.esp + 4 ≠ st.esp - 4 by omega)]; exact hc,
    show wadd c 0 = c from by unfold wadd W32; omega,
    show wadd c 140 = c + 140 from by unfold wadd W32; omega,
    show wadd c 144 = c + 144 from by unfold wadd W32; omega,
    show wadd c 148 = c + 148 from by unfold wadd W32; omega,
    show wadd c 152 = c + 152 from by unfold wadd W32; omega,
    show wadd c 156 = c + 156 from by unfold wadd W32; omega,
    show wadd c 160 = c + 160 from by unfold wadd W32; omega,
    show wadd c 164 = c + 164 from by unfold wadd W32; omega,
    show wadd c 168 = c + 168 from by unfold wadd W32; omega,
    show wadd c 172 = c + 172 from by unfold wadd W32; omega,
    show wadd c 176 = c + 176 from by unfold wadd W32; omega,
    show wadd c 180 = c + 180 from by unfold wadd W32; omega,
    show wadd c 184 = c + 184 from by unfold wadd W32; omega,
    show wadd c 188 = c + 188 from by unfold wadd W32; omega,
    show wadd c 192 = c + 192 from by unfold wadd W32; omega,
    show wadd c 196 = c + 196 from by unfold wadd W32; omega,
    show wadd c 200 = c + 200 from by unfold wadd W32; omega,
    show wsub (st.esp - 4) 4 = st.esp - 8 from by unfold wsub W32; omega,
    show wadd (st.esp - 8) 4 = st.esp - 4 from by unfold wadd W32; omega,
    show wadd (st.esp - 4) 4 = st.esp from by unfold wadd W32; omega,
    show wadd st.esp 8 = st.esp + 8 from by unfold wadd W32; omega,
    show wadd st.ebp 4 = st.ebp + 4 from by unfold wadd W32; omega,
    show wadd st.ebp 8 = st.ebp + 8 from by unfold wadd W32; omega]

set_option maxHeartbeats 1000000 in
/-- Routine `rtl_capture_context` stores the word at `[ebp]` — the saved
frame pointer of the caller — into the `Ebp` field of the context. -/
theorem rtl_mem_EBP (st : X86State) (mem : Nat → Nat) (c : Nat)
    (hc : mem (st.esp + 4) = c) (h : captureOk st c) :
    (rtl_capture_context st mem).2 (c + EBP) = mem st.ebp := by
  obtain ⟨h1, h2, h3, h4, H, hb1, hb2, hb3, hb4⟩ := h
  simp only [ctxOffsets, CONTEXT_FLAGS, CONTEXT_FULL, SEGGS, SEGFS, SEGES, SEGDS, EDI, ESI, EBX, EDX, ECX, EAX, EBP, EIP, SEGCS, EFLAGS, ESP, SEGSS, List.mem_cons, List.not_mem_nil,
    forall_eq_or_imp, forall_eq, or_false, Nat.add_zero] at H
  unfold W32 at h2 h3 h4
  simp only [rtl_capture_context, CONTEXT_FLAGS, CONTEXT_FULL, SEGGS, SEGFS, SEGES, SEGDS, EDI, ESI, EBX, EDX, ECX, EAX, EBP, EIP, SEGCS, EFLAGS, ESP, SEGSS,
    show wsub st.esp 4 = st.esp - 4 from by unfold wsub W32; omega,
    show wadd (st.esp - 4) 8 = st.esp + 4 from by unfold wadd W32; omega,
    show wmem mem (st.esp - 4) st.ebx (st.esp + 4) = c from by
      rw [wmem_other _ _ _ _ (show st.esp + 4 ≠ st.esp - 4 by omega)]; exact hc,
    show wadd c 0 = c from by unfold wadd W32; omega,
    show wadd c 140 = c + 140 from by unfold wadd W32; omega,
    show wadd c 144 = c + 144 from by unfold wadd W32; omega,
    show wadd c 148 = c + 148 from by unfold wadd W32; omega,
    show wadd c 152 = c + 152 from by unfold wadd W32; omega,
    show wadd c 156 = c + 156 from by unfold wadd W32; omega,
    show wadd c 160 = c + 160 from by unfold wadd W32; omega,
    show wadd c 164 = c + 164 from by unfold wadd W32; omega,
    show wadd c 168 = c + 168 from by unfold wadd W32; omega,
    show wadd c 172 = c + 172 from by unfold wadd W32; omega,
    show wadd c 176 = c + 176 from by unfold wadd W32; omega,
    show wadd c 180 = c + 180 from by unfold wadd W32; omega,
    show wadd c 184 = c + 184 from by unfold wadd W32; omega,
    show wadd c 188 = c + 188 from by unfold wadd W32; omega,
    show wadd c 192 = c + 192 from by unfold wadd W32; omega,
    show wadd c 196 = c + 196 from by unfold wadd W32; omega,
    show wadd c 200 = c + 200 from by unfold wadd W32; omega,
    show wsub (st.esp - 4) 4 = st.esp - 8 from by unfold wsub W32; omega,
    show wadd (st.esp - 8) 4 = st.esp - 4 from by unfold wadd W32; omega,
    show wadd (st.esp - 4) 4 = st.esp from by unfold wadd W32; omega,
    show wadd st.esp 8 = st.esp + 8 from by unfold wadd W32; omega,
    show wadd st.ebp 4 = st.ebp + 4 from by unfold wadd W32; omega,
    show wadd st.ebp 8 = st.ebp + 8 from by unfold wadd W32; omega]
  have s0 := (H.1.2.2.2.2.1).symm
  have s1 := (H.2.1.2.2.2.2.1).symm
  have s2 := (H.2.2.1.2.2.2.2.1).symm
  have s3 := (H.2.2.2.1.2.2.2.2.1).symm
  have s4 := (H.2.2.2.2.1.2.2.2.2.1).symm
  have s5 := (H.2.2.2.2.2.1.2.2.2.2.1).symm
  have s6 := (H.2.2.2.2.2.2.1.2.2.2.2.1).symm
  have s7 := (H.2.2.2.2.2.2.2.1.2.2.2.2.1).symm
  have s8 := (H.2.2.2.2.2.2.2.2.1.2.2.2.2.1).symm
  have s9 := (H.2.2.2.2.2.2.2.2.2.1.2.2.2.2.1).symm
  have s10 := (H.2.2.2.2.2.2.2.2.2.2.1.2.2.2.2.1).symm
  have s11 := (H.2.2.2.2.2.2.2.2.2.2.2.1.2.2.2.2.1).symm
  have s12 := (H.2.2.2.2.2.2.2.2.2.2.2.2.1.2.2.2.2.1).symm
  have s13 := (H.2.2.2.2.2.2.2.2.2.2.2.2.2.1.2.2.2.2.1).symm
  have s14 := (H.2.2.2.2.2.2.2.2.2.2.2.2.2.2.1.2.2.2.2.1).symm
  have s15 := (H.2.2.2.2.2.2.2.2.2.2.2.2.2.2.2.1.2.2.2.2.1).symm
  have s16 := (H.2.2.2.2.2.2.2.2.2.2.2.2.2.2.2.2.2.2.2.2.1).symm
  clear H hb3 hb4 hc
  have q1 : c + 180 ≠ c := by omega
  have q2 : c + 180 ≠ c + 196 := by omega
  have q3 : c + 180 ≠ c + 184 := by omega
  clear h1 h2 h3 h4
  simp (disch := assumption) only [wmem_other, wmem_same]

set_option maxHeartbeats 1000000 in
/-- Routine `rtl_capture_context` stores the word at `[ebp+4]` — the
return address of the caller — into the `Eip` field of the context. -/
theorem rtl_mem_EIP (st : X86State) (mem : Nat → Nat) (c : Nat)
    (hc : mem (st.esp + 4) = c) (h : captureOk st c) :
    (rtl_capture_context st mem).2 (c + EIP) = mem (st.ebp + 4) := by
  obtain ⟨h1, h2, h3, h4, H, hb1, hb2, hb3, hb4⟩ := h
  simp only [ctxOffsets, CONTEXT_FLAGS, CONTEXT_FULL, SEGGS, SEGFS, SEGES, SEGDS, EDI, ESI, EBX, EDX, ECX, EAX, EBP, EIP, SEGCS, EFLAGS, ESP, SEGSS, List.mem_cons, List.not_mem_nil,
    forall_eq_or_imp, forall_eq, or_false, Nat.add_zero] at H
  unfold W32 at h2 h3 h4
  simp only [rtl_capture_context, CONTEXT_FLAGS, CONTEXT_FULL, SEGGS, SEGFS, SEGES, SEGDS, EDI, ESI, EBX, EDX, ECX, EAX, EBP, EIP, SEGCS, EFLAGS, ESP, SEGSS,
    show wsub st.esp 4 = st.esp - 4 from by unfold wsub W32; omega,
    show wadd (st.esp - 4) 8 = st.esp + 4 from by unfold wadd W32; omega,
    show wmem mem (st.esp - 4) st.ebx (st.esp + 4) = c from by
      rw [wmem_other _ _ _ _ (show st.esp + 4 ≠ st.esp - 4 by omega)]; exact hc,
    show wadd c 0 = c from by unfold wadd W32; omega,
    show wadd c 140 = c + 140 from by unfold wadd W32; omega,
    show wadd c 144 = c + 144 from by unfold wadd W32; omega,
    show wadd c 148 = c + 148 from by unfold wadd W32; omega,
    show wadd c 152 = c + 152 from by unfold wadd W32; omega,
    show wadd c 156 = c + 156 from by unfold wadd W32; omega,
    show wadd c 160 = c + 160 from by unfold wadd W32; omega,
    show wadd c 164 = c + 164 from by unfold wadd W32; omega,
    show wadd c 168 = c + 168 from by unfold wadd W32; omega,
    show wadd c 172 = c + 172 from by unfold wadd W32; omega,
    show wadd c 176 = c + 176 from by unfold wadd W32; omega,
    show wadd c 180 = c + 180 from by unfold wadd W32; omega,
    show wadd c 184 = c + 184 from by unfold wadd W32; omega,
    show wadd c 188 = c + 188 from by unfold wadd W32; omega,
    show wadd c 192 = c + 192 from by unfold wadd W32; omega,
    show wadd c 196 = c + 196 from by unfold wadd W32; omega,
    show wadd c 200 = c + 200 from by unfold wadd W32; omega,
    show wsub (st.esp - 4) 4 = st.esp - 8 from by unfold wsub W32; omega,
    show wadd (st.esp - 8) 4 = st.esp - 4 from by unfold wadd W32; omega,
    show wadd (st.esp - 4) 4 = st.esp from by unfold wadd W32; omega,
    show wadd st.esp 8 = st.esp + 8 from by unfold wadd W32; omega,
    show wadd st.ebp 4 = st.ebp + 4 from by unfold wadd W32; omega,
    show wadd st.ebp 8 = st.ebp + 8 from by unfold wadd W32; omega]
  have s0 := (H.1.2.2.2.2.2).symm
  have s1 := (H.2.1.2.2.2.2.2).symm
  have s2 := (H.2.2.1.2.2.2.2.2).symm
  have s3 := (H.2.2.2.1.2.2.2.2.2).symm
  have s4 := (H.2.2.2.2.1.2.2.2.2.2).symm
  have s5 := (H.2.2.2.2.2.1.2.2.2.2.2).symm
  have s6 := (H.2.2.2.2.2.2.1.2.2.2.2.2).symm
  have s7 := (H.2.2.2.2.2.2.2.1.2.2.2.2.2).symm
  have s8 := (H.2.2.2.2.2.2.2.2.1.2.2.2.2.2).symm
  have s9 := (H.2.2.2.2.2.2.2.2.2.1.2.2.2.2.2).symm
  have s10 := (H.2.2.2.2.2.2.2.2.2.2.1.2.2.2.2.2).symm
  have s11 := (H.2.2.2.2.2.2.2.2.2.2.2.1.2.2.2.2.2).symm
  have s12 := (H.2.2.2.2.2.2.2.2.2.2.2.2.1.2.2.2.2.2).symm
  have s13 := (H.2.2.2.2.2.2.2.2.2.2.2.2.2.1.2.2.2.2.2).symm
  have s14 := (H.2.2.2.2.2.2.2.2.2.2.2.2.2.2.1.2.2.2.2.2).symm
  have s15 := (H.2.2.2.2.2.2.2.2.2.2.2.2.2.2.2.1.2.2.2.2.2).symm
  have s16 := (H.2.2.2.2.2.2.2.2.2.2.2.2.2.2.2.2.2.2.2.2.2).symm
  clear H hb1 hb2 hc
  have q1 : c + 184 ≠ c := by omega
  have q2 : c + 184 ≠ c + 196 := by omega
  clear h1 h2 h3 h4
  simp (disch := assumption) only [wmem_other, wmem_same]

set_option maxHeartbeats 1000000 in
/-- Routine `rtl_capture_context` stores `ebp + 8` — the synthesized
stack pointer at call time — into the `Esp` field of the context. -/
theorem rtl_mem_ESP (st : X86State) (mem : Nat → Nat) (c : Nat)
    (hc : mem (st.esp + 4) = c) (h : captureOk st c) :
    (rtl_capture_context st mem).2 (c + ESP) = st.ebp + 8 := by
  obtain ⟨h1, h2, h3, h4, H, hb1, hb2, hb3, hb4⟩ := h
  simp only [ctxOffsets, CONTEXT_FLAGS, CONTEXT_FULL, SEGGS, SEGFS, SEGES, SEGDS, EDI, ESI, EBX, EDX, ECX, EAX, EBP, EIP, SEGCS, EFLAGS, ESP, SEGSS, List.mem_cons, List.not_mem_nil,
    forall_eq_or_imp, forall_eq, or_false, Nat.add_zero] at H
  unfold W32 at h2 h3 h4
  simp only [rtl_capture_context, CONTEXT_FLAGS, CONTEXT_FULL, SEGGS, SEGFS, SEGES, SEGDS, EDI, ESI, EBX, EDX, ECX, EAX, EBP, EIP, SEGCS, EFLAGS, ESP, SEGSS,
    show wsub st.esp 4 = st.esp - 4 from by unfold wsub W32; omega,
    show wadd (st.esp - 4) 8 = st.esp + 4 from by unfold wadd W32; omega,
    show wmem mem (st.esp - 4) st.ebx (st.esp + 4) = c from by
      rw [wmem_other _ _ _ _ (show st.esp + 4 ≠ st.esp - 4 by omega)]; exact hc,
    show wadd c 0 = c from by unfold wadd W32; omega,
    show wadd c 140 = c + 140 from by unfold wadd W32; omega,
    show wadd c 144 = c + 144 from by unfold wadd W32; omega,
    show wadd c 148 = c + 148 from by unfold wadd W32; omega,
    show wadd c 152 = c + 152 from by unfold wadd W32; omega,
    show wadd c 156 = c + 156 from by unfold wadd W32; omega,
    show wadd c 160 = c + 160 from by unfold wadd W32; omega,
    show wadd c 164 = c + 164 from by unfold wadd W32; omega,
    show wadd c 168 = c + 168 from by unfold wadd W32; omega,
    show wadd c 172 = c + 172 from by unfold wadd W32; omega,
    show wadd c 176 = c + 176 from by unfold wadd W32; omega,
    show wadd c 180 = c + 180 from by unfold wadd W32; omega,
    show wadd c 184 = c + 184 from by unfold wadd W32; omega,
    show wadd c 188 = c + 188 from by unfold wadd W32; omega,
    show wadd c 192 = c + 192 from by unfold wadd W32; omega,
    show wadd c 196 = c + 196 from by unfold wadd W32; omega,
    show wadd c 200 = c + 200 from by unfold wadd W32; omega,
    show wsub (st.esp - 4) 4 = st.esp - 8 from by unfold wsub W32; omega,
    show wadd (st.esp - 8) 4 = st.esp - 4 from by unfold wadd W32; omega,
    show wadd (st.esp - 4) 4 = st.esp from by unfold wadd W32; omega,
    show wadd st.esp 8 = st.esp + 8 from by unfold wadd W32; omega,
    show wadd st.ebp 4 = st.ebp + 4 from by unfold wadd W32; omega,
    show wadd st.ebp 8 = st.ebp + 8 from by unfold wadd W32; omega]
  clear H hb1 hb2 hb3 hb4 hc
  have q1 : c + 196 ≠ c := by omega
  clear h1 h2 h3 h4
  simp (disch := assumption) only [wmem_other, wmem_same]

/-- C2: the 32-bit fallback context-capture routine preserves every
caller-visible register except its single scratch register `eax` (left
holding the addressing value `ebp + 8`), and pops its own saved state
before returning: on exit `esp` is exactly 8 bytes above its entry
value, as stdcall with one 4-byte argument requires. -/
theorem rtl_capture_context_preserves_registers (st : X86State) (mem : Nat → Nat)
    (c : Nat) (hc : mem (st.esp + 4) = c) (h : captureOk st c) :
    (rtl_capture_context st mem).1.ebx = st.ebx ∧
    (rtl_capture_context st mem).1.ecx = st.ecx ∧
    (rtl_capture_context st mem).1.edx = st.edx ∧
    (rtl_capture_context st mem).1.esi = st.esi ∧
    (rtl_capture_context st mem).1.edi = st.edi ∧
    (rtl_capture_context st mem).1.ebp = st.ebp ∧
    (rtl_capture_context st mem).1.cs = st.cs ∧
    (rtl_capture_context st mem).1.ds = st.ds ∧
    (rtl_capture_context st mem).1.es = st.es ∧
    (rtl_capture_context st mem).1.fs = st.fs ∧
    (rtl_capture_context st mem).1.gs = st.gs ∧
    (rtl_capture_context st mem).1.ss = st.ss ∧
    (rtl_capture_context st mem).1.eflags = st.eflags ∧
    (rtl_capture_context st mem).1.esp = st.esp + 8 ∧
    (rtl_capture_context st mem).1.eax = st.ebp + 8 :=
  ⟨rtl_ebx st mem c hc h, rfl, rfl, rfl, rfl, rfl, rfl, rfl, rfl, rfl, rfl, rfl, rfl,
    rtl_esp st mem c hc h, rtl_eax st mem c hc h⟩

/-- Witness for C2 at the concrete call site `wSt`, `wMem`. -/
theorem rtl_capture_context_preserves_registers_witness :
    captureOk wSt 3000 ∧
    ((rtl_capture_context wSt wMem).1.ebx = wSt.ebx ∧
      (rtl_capture_context wSt wMem).1.ecx = wSt.ecx ∧
      (rtl_capture_context wSt wMem).1.edx = wSt.edx ∧
      (rtl_capture_context wSt wMem).1.esi = wSt.esi ∧
      (rtl_capture_context wSt wMem).1.edi = wSt.edi ∧
      (rtl_capture_context wSt wMem).1.ebp = wSt.ebp ∧
      (rtl_capture_context wSt wMem).1.cs = wSt.cs ∧
      (rtl_capture_context wSt wMem).1.ds = wSt.ds ∧
      (rtl_capture_context wSt wMem).1.es = wSt.es ∧
      (rtl_capture_context wSt wMem).1.fs = wSt.fs ∧
      (rtl_capture_context wSt wMem).1.gs = wSt.gs ∧
      (rtl_capture_context wSt wMem).1.ss = wSt.ss ∧
      (rtl_capture_context wSt wMem).1.eflags = wSt.eflags ∧
      (rtl_capture_context wSt wMem).1.esp = wSt.esp + 8 ∧
      (rtl_capture_context wSt wMem).1.eax = wSt.ebp + 8) :=
  ⟨by decide, rtl_capture_context_preserves_registers wSt wMem 3000 (by decide) (by decide)⟩

/-- C8: the 32-bit fallback context-capture routine recovers the saved
frame pointer of the caller from `[ebp]`, the return address of the
calling routine from `[ebp+4]`, and the synthesized stack pointer at
call time as the address `ebp + 8`, storing them into the `Ebp`, `Eip`
and `Esp` fields of the output context — all by reading through the
local frame-pointer chain, with no OS service involved. -/
theorem rtl_capture_context_stores_caller_frame (st : X86State) (mem : Nat → Nat)
    (c : Nat) (hc : mem (st.esp + 4) = c) (h : captureOk st c) :
    (rtl_capture_context st mem).2 (c + EBP) = mem st.ebp ∧
    (rtl_capture_context st mem).2 (c + EIP) = mem (st.ebp + 4) ∧
    (rtl_capture_context st mem).2 (c + ESP) = st.ebp + 8 :=
  ⟨rtl_mem_EBP st mem c hc h, rtl_mem_EIP st mem c hc h, rtl_mem_ESP st mem c hc h⟩

/-- Witness for C8 at the concrete call site `wSt`, `wMem`. -/
theorem rtl_capture_context_stores_caller_frame_witness :
    captureOk wSt 3000 ∧
    ((rtl_capture_context wSt wMem).2 (3000 + EBP) = wMem wSt.ebp ∧
      (rtl_capture_context wSt wMem).2 (3000 + EIP) = wMem (wSt.ebp + 4) ∧
      (rtl_capture_context wSt wMem).2 (3000 + ESP) = wSt.ebp + 8) :=
  ⟨by decide, rtl_capture_context_stores_caller_frame wSt wMem 3000 (by decide) (by decide)⟩

/-- The external walking primitive rewrites address fields in place but
cannot change which variant of the tagged union the frame carries. -/
theorem applyStep_isNew (u : StepUpdate) (f : Frame) : (applyStep u f).isNew = f.isNew := by
  cases f <;> rfl

/-- Function `applyStep` leaves every addressing-mode flag unchanged. -/
theorem applyStep_modesFlat (u : StepUpdate) (f : Frame) (h : f.modesFlat) :
    (applyStep u f).modesFlat := by
  cases f <;>
    simpa [applyStep, Frame.modify_addr_pc, Frame.modify_addr_stack, Frame.modify_addr_frame,
      Frame.modesFlat, Frame.addr_pc, Frame.addr_stack, Frame.addr_frame] using h

/-- Initialization does not change the variant of the frame record. -/
theorem init_frame_isNew (f : Frame) (ctx : CONTEXT) :
    ((init_frame f ctx).1).isNew = f.isNew := by
  cases ctx <;> cases f <;> rfl

/-- Initialization sets all three addressing modes to `AddrModeFlat`. -/
theorem init_frame_modesFlat (f : Frame) (ctx : CONTEXT) :
    ((init_frame f ctx).1).modesFlat := by
  cases ctx <;> cases f <;>
    simp [init_frame, Frame.modify_addr_pc, Frame.modify_addr_stack, Frame.modify_addr_frame,
      Frame.modesFlat, Frame.addr_pc, Frame.addr_stack, Frame.addr_frame]

/-- Every frame the walk loop shows to the visitor carries the variant of
the frame the loop started with. -/
theorem walkLoop_isNew {σ : Type} (steps : List StepUpdate) (f : Frame)
    (cb : σ → Frame → Bool × σ) (s : σ) :
    ∀ g ∈ (walkLoop steps f cb s).emitted, g.isNew = f.isNew := by
  induction steps generalizing f s with
  | nil => intro g hg; simp [walkLoop] at hg
  | cons u rest ih =>
    intro g hg
    by_cases hcn : (cb s (applyStep u f)).1
    · simp only [walkLoop, hcn, if_true] at hg
      rcases List.mem_cons.1 hg with rfl | hg
      · exact applyStep_isNew u f
      · exact (ih (applyStep u f) (cb s (applyStep u f)).2 g hg).trans (applyStep_isNew u f)
    · simp only [walkLoop, hcn, if_false] at hg
      rcases List.mem_cons.1 hg with rfl | hg
      · exact applyStep_isNew u f
      · simp at hg

/-- Every frame the walk loop shows to the visitor has flat addressing
modes, provided the initial frame does. -/
theorem walkLoop_modesFlat {σ : Type} (steps : List StepUpdate) (f : Frame)
    (cb : σ → Frame → Bool × σ) (s : σ) (hf : f.modesFlat) :
    ∀ g ∈ (walkLoop steps f cb s).emitted, g.modesFlat := by
  induction steps generalizing f s with
  | nil => intro g hg; simp [walkLoop] at hg
  | cons u rest ih =>
    intro g hg
    by_cases hcn : (cb s (applyStep u f)).1
    · simp only [walkLoop, hcn, if_true] at hg
      rcases List.mem_cons.1 hg with rfl | hg
      · exact applyStep_modesFlat u f hf
      · exact ih (applyStep u f) (cb s (applyStep u f)).2 (applyStep_modesFlat u f hf) g hg
    · simp only [walkLoop, hcn, if_false] at hg
      rcases List.mem_cons.1 hg with rfl | hg
      · exact applyStep_modesFlat u f hf
      · simp at hg

/-- With a visitor that always answers "continue", the walk loop shows
every oracle step to the visitor and calls the primitive once more (the
final, failing call). -/
theorem walkLoop_continue {σ : Type} (steps : List StepUpdate) (f : Frame)
    (cb : σ → Frame → Bool × σ) (s : σ) (hcb : ∀ t g, (cb t g).1 = true) :
    (walkLoop steps f cb s).emitted.length = steps.length ∧
    (walkLoop steps f cb s).primCalls = steps.length + 1 ∧
    (walkLoop steps f cb s).visitorCalls = steps.length := by
  induction steps generalizing f s with
  | nil => simp [walkLoop]
  | cons u rest ih =>
    have h := hcb s (applyStep u f)
    have := ih (applyStep u f) (cb s (applyStep u f)).2
    simp only [walkLoop, h, if_true, List.length_cons]
    omega

/-- If the answer sequence continues through the first `k - 1` frames and
stops on the `k`-th, the walk loop shows exactly `k` frames and calls the
primitive exactly `k` times. -/
theorem walkLoop_stop (d : Nat → Bool) :
    ∀ (steps : List StepUpdate) (f : Frame) (n k : Nat), 1 ≤ k → k ≤ steps.length →
    (∀ j, n < j → j < n + k → d j = true) → d (n + k) = false →
    (walkLoop steps f (seqVisitor d) n).emitted.length = k ∧
    (walkLoop steps f (seqVisitor d) n).primCalls = k := by
  intro steps
  induction steps with
  | nil => intro f n k hk hlen _ _; exfalso; simp at hlen; omega
  | cons u rest ih =>
    intro f n k hk hlen hcont hstop
    by_cases hk1 : k = 1
    · subst hk1
      have hd : d (n + 1) = false := hstop
      simp [walkLoop, seqVisitor, hd]
    · have hd : d (n + 1) = true := hcont (n + 1) (by omega) (by omega)
      have hrec := ih (applyStep u f) (n + 1) (k - 1) (by omega)
        (by simp at hlen ⊢; omega)
        (by intro j h1 h2; exact hcont j (by omega) (by omega))
        (by have e : n + 1 + (k - 1) = n + k := by omega
            rw [e]; exact hstop)
      simp only [walkLoop, seqVisitor, hd, if_true, List.length_cons]
      omega

/-- A trace whose dbghelp initialization succeeded is the walk loop
started from the `init_frame`-initialized record of the variant the
`StackWalkEx` probe selects. -/
theorem trace_some_eq {σ : Type} (dg : Dbghelp) (ctx : CONTEXT) (steps : List StepUpdate)
    (cb : σ → Frame → Bool × σ) (s0 : σ) :
    trace (some dg) ctx steps cb s0 =
      walkLoop steps
        (init_frame
          (if dg.hasStackWalkEx then Frame.New zeroSTACKFRAME_EX
           else Frame.Old zeroSTACKFRAME64) ctx).1 cb s0 := by
  cases dg with
  | mk b => cases b <;> rfl

/-- C1: if the external initialization service (dbghelp bring-up) fails,
`trace` returns normally, invokes the visitor zero times, emits an
exactly empty frame sequence, and never calls the walking primitive. -/
theorem trace_init_failure_yields_empty {σ : Type} (ctx : CONTEXT)
    (steps : List StepUpdate) (cb : σ → Frame → Bool × σ) (s0 : σ) :
    (trace none ctx steps cb s0).emitted = [] ∧
    (trace none ctx steps cb s0).visitorCalls = 0 ∧
    (trace none ctx steps cb s0).primCalls = 0 :=
  ⟨rfl, rfl, rfl⟩

/-- C3: if the visitor stops on the `k`-th frame it is shown, the walk
emits exactly `k` frames and the external walking primitive is invoked
exactly `k` times — never a `(k+1)`-th time after the stop. -/
theorem trace_stop_after_k_frames (d : Nat → Bool) (k : Nat) (dg : Dbghelp)
    (ctx : CONTEXT) (steps : List StepUpdate) (hk : 1 ≤ k) (hlen : k ≤ steps.length)
    (hcont : ∀ j, 1 ≤ j → j < k → d j = true) (hstop : d k = false) :
    (trace (some dg) ctx steps (seqVisitor d) 0).emitted.length = k ∧
    (trace (some dg) ctx steps (seqVisitor d) 0).primCalls = k := by
  rw [trace_some_eq]
  exact walkLoop_stop d steps _ 0 k hk hlen
    (fun j h1 h2 => hcont j (by omega) (by omega)) (by simpa using hstop)

/-- Witness for C3: a three-step oracle with a visitor that stops on the
second frame emits exactly two frames with two primitive calls. -/
theorem trace_stop_after_k_frames_witness :
    (trace (some ⟨true⟩) (CONTEXT.x86_64 0 0 0) [⟨1, 2, 3⟩, ⟨4, 5, 6⟩, ⟨7, 8, 9⟩]
        (seqVisitor (fun j => decide (j < 2))) 0).emitted.length = 2 ∧
    (trace (some ⟨true⟩) (CONTEXT.x86_64 0 0 0) [⟨1, 2, 3⟩, ⟨4, 5, 6⟩, ⟨7, 8, 9⟩]
        (seqVisitor (fun j => decide (j < 2))) 0).primCalls = 2 :=
  trace_stop_after_k_frames (fun j => decide (j < 2)) 2 ⟨true⟩ (CONTEXT.x86_64 0 0 0)
    [⟨1, 2, 3⟩, ⟨4, 5, 6⟩, ⟨7, 8, 9⟩] (by decide) (by decide)
    (fun j _ h2 => decide_eq_true h2) (by decide)

/-- C4: the variant of the frame record is fixed before the loop by the
`StackWalkEx` availability probe, and every frame delivered to the
visitor during that walk carries that same variant — the record is never
re-tagged mid-walk. -/
theorem trace_variant_constant {σ : Type} (dg : Dbghelp) (ctx : CONTEXT)
    (steps : List StepUpdate) (cb : σ → Frame → Bool × σ) (s0 : σ) :
    ∀ f ∈ (trace (some dg) ctx steps cb s0).emitted, f.isNew = dg.hasStackWalkEx := by
  intro f hf
  rw [trace_some_eq] at hf
  rw [walkLoop_isNew _ _ cb s0 f hf, init_frame_isNew]
  cases dg with
  | mk b => cases b <;> rfl

/-- Witness for C4: the frame emitted by a concrete one-step walk with
`StackWalkEx` available carries the Extended variant. -/
theorem trace_variant_constant_witness :
    wFrameNew.isNew = (⟨true⟩ : Dbghelp).hasStackWalkEx :=
  trace_variant_constant ⟨true⟩ (CONTEXT.x86_64 1 2 3) [⟨9, 8, 7⟩] alwaysContinue ()
    wFrameNew (by decide)

/-- C5: for either freshly zeroed frame-record variant and any register
context whose program counter is `P`, stack pointer `S` and frame
pointer `F`, `init_frame` makes `ip()` report `P` and `sp()` report `S`,
stores `F` in the frame-pointer field, and returns the machine tag of
the build target architecture — on all four architectures. -/
theorem init_frame_exposes_context_registers (P S F : Nat) :
    (init_frame (Frame.New zeroSTACKFRAME_EX) (CONTEXT.x86_64 P S F)).1.ip = P ∧
    (init_frame (Frame.New zeroSTACKFRAME_EX) (CONTEXT.x86_64 P S F)).1.sp = S ∧
    (init_frame (Frame.New zeroSTACKFRAME_EX) (CONTEXT.x86_64 P S F)).1.addr_frame.Offset = F ∧
    (init_frame (Frame.New zeroSTACKFRAME_EX) (CONTEXT.x86_64 P S F)).2 = IMAGE_FILE_MACHINE_AMD64 ∧
    (init_frame (Frame.Old zeroSTACKFRAME64) (CONTEXT.x86_64 P S F)).1.ip = P ∧
    (init_frame (Frame.Old zeroSTACKFRAME64) (CONTEXT.x86_64 P S F)).1.sp = S ∧
    (init_frame (Frame.Old zeroSTACKFRAME64) (CONTEXT.x86_64 P S F)).1.addr_frame.Offset = F ∧
    (init_frame (Frame.Old zeroSTACKFRAME64) (CONTEXT.x86_64 P S F)).2 = IMAGE_FILE_MACHINE_AMD64 ∧
    (init_frame (Frame.New zeroSTACKFRAME_EX) (CONTEXT.x86 P S F)).1.ip = P ∧
    (init_frame (Frame.New zeroSTACKFRAME_EX) (CONTEXT.x86 P S F)).1.sp = S ∧
    (init_frame (Frame.New zeroSTACKFRAME_EX) (CONTEXT.x86 P S F)).1.addr_frame.Offset = F ∧
    (init_frame (Frame.New zeroSTACKFRAME_EX) (CONTEXT.x86 P S F)).2 = IMAGE_FILE_MACHINE_I386 ∧
    (init_frame (Frame.Old zeroSTACKFRAME64) (CONTEXT.x86 P S F)).1.ip = P ∧
    (init_frame (Frame.Old zeroSTACKFRAME64) (CONTEXT.x86 P S F)).1.sp = S ∧
    (init_frame (Frame.Old zeroSTACKFRAME64) (CONTEXT.x86 P S F)).1.addr_frame.Offset = F ∧
    (init_frame (Frame.Old zeroSTACKFRAME64) (CONTEXT.x86 P S F)).2 = IMAGE_FILE_MACHINE_I386 ∧
    (init_frame (Frame.New zeroSTACKFRAME_EX) (CONTEXT.aarch64 P S F)).1.ip = P ∧
    (init_frame (Frame.New zeroSTACKFRAME_EX) (CONTEXT.aarch64 P S F)).1.sp = S ∧
    (init_frame (Frame.New zeroSTACKFRAME_EX) (CONTEXT.aarch64 P S F)).1.addr_frame.Offset = F ∧
    (init_frame (Frame.New zeroSTACKFRAME_EX) (CONTEXT.aarch64 P S F)).2 = IMAGE_FILE_MACHINE_ARM64 ∧
    (init_frame (Frame.Old zeroSTACKFRAME64) (CONTEXT.aarch64 P S F)).1.ip = P ∧
    (init_frame (Frame.Old zeroSTACKFRAME64) (CONTEXT.aarch64 P S F)).1.sp = S ∧
    (init_frame (Frame.Old zeroSTACKFRAME64) (CONTEXT.aarch64 P S F)).1.addr_frame.Offset = F ∧
    (init_frame (Frame.Old zeroSTACKFRAME64) (CONTEXT.aarch64 P S F)).2 = IMAGE_FILE_MACHINE_ARM64 ∧
    (init_frame (Frame.New zeroSTACKFRAME_EX) (CONTEXT.arm P S F)).1.ip = P ∧
    (init_frame (Frame.New zeroSTACKFRAME_EX) (CONTEXT.arm P S F)).1.sp = S ∧
    (init_frame (Frame.New zeroSTACKFRAME_EX) (CONTEXT.arm P S F)).1.addr_frame.Offset = F ∧
    (init_frame (Frame.New zeroSTACKFRAME_EX) (CONTEXT.arm P S F)).2 = IMAGE_FILE_MACHINE_ARMNT ∧
    (init_frame (Frame.Old zeroSTACKFRAME64) (CONTEXT.arm P S F)).1.ip = P ∧
    (init_frame (Frame.Old zeroSTACKFRAME64) (CONTEXT.arm P S F)).1.sp = S ∧
    (init_frame (Frame.Old zeroSTACKFRAME64) (CONTEXT.arm P S F)).1.addr_frame.Offset = F ∧
    (init_frame (Frame.Old zeroSTACKFRAME64) (CONTEXT.arm P S F)).2 = IMAGE_FILE_MACHINE_ARMNT :=
  ⟨rfl, rfl, rfl, rfl, rfl, rfl, rfl, rfl, rfl, rfl, rfl, rfl, rfl, rfl, rfl, rfl, rfl, rfl, rfl, rfl, rfl, rfl, rfl, rfl, rfl, rfl, rfl, rfl, rfl, rfl, rfl, rfl⟩

/-- C6: initialization sets all three addressing modes of the frame
record to `AddrModeFlat` — no other mode is ever set — and every frame
emitted by a walk carries the flat mode on all three address fields. -/
theorem trace_frames_flat_mode {σ : Type} (dbg : Option Dbghelp) (ctx : CONTEXT)
    (steps : List StepUpdate) (cb : σ → Frame → Bool × σ) (s0 : σ) :
    (∀ (frame : Frame) (c : CONTEXT), ((init_frame frame c).1).modesFlat) ∧
    ∀ f ∈ (trace dbg ctx steps cb s0).emitted, f.modesFlat := by
  refine ⟨init_frame_modesFlat, ?_⟩
  intro f hf
  match dbg with
  | none => simp [trace] at hf
  | some dg =>
    rw [trace_some_eq] at hf
    exact walkLoop_modesFlat _ _ cb s0 (init_frame_modesFlat _ _) f hf

/-- Witness for C6: the frame emitted by a concrete one-step walk has
flat addressing modes on all three fields. -/
theorem trace_frames_flat_mode_witness : wFrameNew.modesFlat :=
  (trace_frames_flat_mode (some ⟨true⟩) (CONTEXT.x86_64 1 2 3) [⟨9, 8, 7⟩]
      alwaysContinue ()).2 wFrameNew (by decide)

/-- C7: on 64-bit targets both resolution callbacks are local wrappers
over the kernel primitive `RtlLookupFunctionEntry`:
`function_table_access` returns the function-table entry the primitive
reports for the address, and `get_module_base` returns the base the
primitive writes to its out-parameter for the address. -/
theorem resolution_callbacks_use_rtl_lookup (rtlLookupFunctionEntry : Nat → Nat × Nat)
    (process addr : Nat) :
    function_table_access rtlLookupFunctionEntry process addr =
      (rtlLookupFunctionEntry addr).1 ∧
    get_module_base rtlLookupFunctionEntry process addr =
      (rtlLookupFunctionEntry addr).2 :=
  ⟨rfl, rfl⟩

/-- C9: with a visitor that always continues, the walk terminates once
the external primitive reports exhaustion after its finitely many
successful steps: every step is shown to the visitor and the primitive
is called exactly once more than the number of frames — the driver
imposes no caller-side frame-count bound. -/
theorem trace_terminates_on_exhaustion {σ : Type} (cb : σ → Frame → Bool × σ)
    (hcb : ∀ s f, (cb s f).1 = true) (dg : Dbghelp) (ctx : CONTEXT)
    (steps : List StepUpdate) (s0 : σ) :
    (trace (some dg) ctx steps cb s0).emitted.length = steps.length ∧
    (trace (some dg) ctx steps cb s0).primCalls = steps.length + 1 := by
  rw [trace_some_eq]
  exact ⟨(walkLoop_continue steps _ cb s0 hcb).1, (walkLoop_continue steps _ cb s0 hcb).2.1⟩

/-- Witness for C9: a two-step oracle with the always-continue visitor
emits both frames and makes three primitive calls. -/
theorem trace_terminates_on_exhaustion_witness :
    (trace (some ⟨false⟩) (CONTEXT.x86 4 5 6) [⟨1, 1, 1⟩, ⟨2, 2, 2⟩]
        alwaysContinue ()).emitted.length = 2 ∧
    (trace (some ⟨false⟩) (CONTEXT.x86 4 5 6) [⟨1, 1, 1⟩, ⟨2, 2, 2⟩]
        alwaysContinue ()).primCalls = 3 :=
  trace_terminates_on_exhaustion alwaysContinue (fun _ _ => rfl) ⟨false⟩
    (CONTEXT.x86 4 5 6) [⟨1, 1, 1⟩, ⟨2, 2, 2⟩] ()

/-- C10: `symbol_address()` returns exactly the pointer `ip()` returns,
for every frame of either variant; there is no separate symbol-address
computation. -/
theorem symbol_address_eq_ip (f : Frame) : f.symbol_address = f.ip := rfl

end Backtrace
